import Mathlib

/-!
Verification development for the password-reset token service.

The service exposes two HTTP handlers, `requestpasswordreset` (token
issuance) and `resetpassword` (token redemption), backed by two Azure
table stores: `prospects` (user records keyed by normalized email) and
`resetrequests` (reset-token records in partition "reset", keyed by the
6-digit code).  We embed the two handlers as pure state-transition
functions.  External effects that may fail independently (store reads and
writes, the notification send) are driven by explicit oracle records; the
random 6-digit code and the bcrypt hash output are oracle inputs as well.
Timestamps are naturals (milliseconds since epoch); ISO date strings in
the source are compared only through `new Date(...)`, which this models.
-/

namespace ResetService

/-- Removes leading and trailing whitespace from a list of characters,
modelling `String.prototype.trim`. -/
def trimChars (cs : List Char) : List Char :=
  ((cs.dropWhile Char.isWhitespace).reverse.dropWhile Char.isWhitespace).reverse

/-- Embeds the helper `normalize = (s) => String(s || '').trim().toLowerCase()`. -/
def normalize (s : String) : String :=
  String.mk ((trimChars s.toList).map Char.toLower)

/-- A character admissible inside the email regex classes `[^\s@]`. -/
def emailCharOk (c : Char) : Bool :=
  !c.isWhitespace && c != '@'

/-- True when the character list contains a dot that is neither the first
nor the last character; together with the character-class checks this is
exactly when `[^\s@]+\.[^\s@]+` matches the whole list. -/
def hasInnerDot (cs : List Char) : Bool :=
  (List.range cs.length).any fun i =>
    decide (0 < i) && decide (i + 1 < cs.length) && cs.getD i ' ' == '.'

/-- Embeds `isValidEmail = (e) => /^[^\s@]+@[^\s@]+\.[^\s@]+$/.test(normalize(e))`:
the normalized string must be `local@rest` with exactly one at-sign, both
parts nonempty and free of whitespace and at-signs, and `rest` containing
an interior dot. -/
def isValidEmail (e : String) : Bool :=
  let cs := (normalize e).toList
  let localPart := cs.takeWhile (fun c => c != '@')
  let rest := (cs.dropWhile (fun c => c != '@')).drop 1
  cs.count '@' == 1 && !localPart.isEmpty && localPart.all emailCharOk &&
    !rest.isEmpty && rest.all emailCharOk && hasInnerDot rest

/-- One of the characters rejected by the HTML-injection check `/[<>&"']/`. -/
def isHtmlChar (c : Char) : Bool :=
  c == '<' || c == '>' || c == '&' || c == '"' || c == '\''

/-- Embeds `isValidPassword`: a string of 8 to 128 characters, no HTML
characters, with at least one ASCII lowercase letter, one uppercase
letter and one digit. -/
def isValidPassword (password : String) : Bool :=
  let cs := password.toList
  decide (8 ≤ cs.length) && decide (cs.length ≤ 128) &&
    !cs.any isHtmlChar &&
    cs.any (fun c => c.isLower) && cs.any (fun c => c.isUpper) &&
    cs.any (fun c => c.isDigit)

/-- Embeds the redemption-side check `/^\d{6}$/.test(code)`. -/
def isSixDigits (code : String) : Bool :=
  code.toList.length == 6 && code.toList.all Char.isDigit

/-- A row of the `prospects` table: partition key and row key are both the
normalized email.  `etag` models the entity version Azure maintains. -/
structure UserRecord where
  email : String
  therapistId : String
  hashedPassword : String
  etag : Nat
  deriving DecidableEq, Repr

/-- A row of the `resetrequests` table (partition "reset", row key =
`code`).  Timestamps are naturals; `etag` models the entity version. -/
structure TokenRecord where
  code : String
  therapistId : String
  email : String
  createdAt : Nat
  expiresAt : Nat
  used : Bool
  etag : Nat
  deriving DecidableEq, Repr

/-- The two durable stores.  Both tables are association lists; list order
models the iteration order of `queryEntities` (first match wins). -/
structure SysState where
  prospects : List UserRecord
  resetRequests : List TokenRecord
  deriving DecidableEq, Repr

/-- An HTTP response body as produced by the handlers: status, `success`,
`message`, and the optional `redirectTo` field. -/
structure HttpResponse where
  status : Nat
  success : Bool
  message : String
  redirectTo : Option String := none
  deriving DecidableEq, Repr

/-- Embeds `prospectsTable.getEntity(email, email)`: direct key lookup. -/
def findUserByEmail (ps : List UserRecord) (email : String) : Option UserRecord :=
  ps.find? (fun u => u.email == email)

/-- Embeds the redemption-side query `therapistId eq X` over `prospects`
with `break` after the first entity. -/
def findUserByTid (ps : List UserRecord) (tid : String) : Option UserRecord :=
  ps.find? (fun u => u.therapistId == tid)

/-- Embeds `resetRequestsTable.getEntity('reset', code)`. -/
def findToken (s : SysState) (code : String) : Option TokenRecord :=
  s.resetRequests.find? (fun t => t.code == code)

/-- Embeds `Math.floor(100000 + Math.random() * 900000)` for a random
draw `rand`: the result always lies in 100000..999999. -/
def mintCode (rand : Nat) : Nat :=
  100000 + rand % 900000

/-- A token record is stale for cleanup when it is used or its expiry is
not strictly in the future (`!(exp > now)`). -/
def isStale (now : Nat) (t : TokenRecord) : Bool :=
  t.used || decide (t.expiresAt ≤ now)

/-- The active tokens of an owner: unused and strictly unexpired. -/
def activeTokens (s : SysState) (tid : String) (now : Nat) : List TokenRecord :=
  s.resetRequests.filter (fun t => t.therapistId == tid && !isStale now t)

/-- The stale tokens of an owner, queued for the batch delete. -/
def staleTokens (s : SysState) (tid : String) (now : Nat) : List TokenRecord :=
  s.resetRequests.filter (fun t => t.therapistId == tid && isStale now t)

/-- Applies the batch delete of an owner's stale tokens.  The
`submitTransaction` call is atomic within the single partition "reset",
so the model removes all of them or (on failure, handled by the caller)
none. -/
def deleteStale (s : SysState) (tid : String) (now : Nat) : SysState :=
  { s with resetRequests :=
      s.resetRequests.filter (fun t => !(t.therapistId == tid && isStale now t)) }

/-- The per-row effect of an upsert-merge of `t`: a row with the same
code is overwritten by `t` (every field of `t` is written, the entity
version advances), any other row is untouched. -/
def replaceWith (t : TokenRecord) (r : TokenRecord) : TokenRecord :=
  if r.code == t.code then { t with etag := r.etag + 1 } else r

/-- Embeds `upsertEntity(record, 'Merge')` on `resetrequests`: replaces
the record with the same code or appends a fresh one. -/
def upsertToken (s : SysState) (t : TokenRecord) : SysState :=
  if s.resetRequests.any (fun r => r.code == t.code) then
    { s with resetRequests := s.resetRequests.map (replaceWith t) }
  else
    { s with resetRequests := s.resetRequests ++ [t] }

/-- Oracle for one issuance call: success of each fallible external step,
the random draw behind the minted code, and the current time. -/
structure IssueOracle where
  userLookupOk : Bool
  queryOk : Bool
  batchDeleteOk : Bool
  upsertOk : Bool
  emailSendOk : Bool
  rand : Nat
  now : Nat
  deriving Repr

/-- Result of one issuance call: the HTTP response, the post-state, and
whether the notification send was attempted. -/
structure IssueResult where
  resp : HttpResponse
  state : SysState
  emailAttempted : Bool
  deriving DecidableEq, Repr

/-- The cleanup-and-rate-limit `try` block completes (reaching the
`active.length >= 2` check) exactly when the owner query succeeds and the
batch delete either is empty or succeeds. -/
def cleanupRan (s : SysState) (o : IssueOracle) (tid : String) : Bool :=
  o.queryOk && ((staleTokens s tid o.now).isEmpty || o.batchDeleteOk)

/-- The token store after the cleanup `try` block: the stale records are
gone when the block completed, untouched when it failed part-way. -/
def cleanupState (s : SysState) (o : IssueOracle) (tid : String) : SysState :=
  if cleanupRan s o tid then deleteStale s tid o.now else s

/-- The `active.length >= 2` rejection fires only when the `try` block
reaches it. -/
def rateLimitHit (s : SysState) (o : IssueOracle) (tid : String) : Bool :=
  cleanupRan s o tid && decide (2 ≤ (activeTokens s tid o.now).length)

/-- The fresh token record minted by an issuance call. -/
def mintedRecord (o : IssueOracle) (tid email : String) : TokenRecord :=
  { code := toString (mintCode o.rand)
    therapistId := tid
    email := email
    createdAt := o.now
    expiresAt := o.now + 15 * 60000
    used := false
    etag := 0 }

/-- Embeds the `requestpasswordreset` handler body, from email validation
on (JSON parsing and CORS preflight are transport concerns outside the
model).  Mirrors the source control flow: validate, look up the user,
run the cleanup/rate-limit `try` block (whose failure is swallowed and
skips the rate-limit check), mint and persist the token, attempt the
notification (failure swallowed), return the uniform success. -/
def requestPasswordReset (s : SysState) (o : IssueOracle) (rawEmail : String) : IssueResult :=
  if !isValidEmail rawEmail then
    { resp := { status := 400, success := false, message := "A valid email is required." }
      state := s, emailAttempted := false }
  else
    match (if o.userLookupOk then findUserByEmail s.prospects (normalize rawEmail) else none) with
    | none =>
        { resp := { status := 200, success := false, message := "Account not found."
                    redirectTo := some "/subscribe" }
          state := s, emailAttempted := false }
    | some user =>
        if rateLimitHit s o user.therapistId then
          { resp := { status := 429, success := false
                      message := "Too many recent reset requests. Please wait before trying again." }
            state := cleanupState s o user.therapistId, emailAttempted := false }
        else if !o.upsertOk then
          { resp := { status := 500, success := false, message := "Could not generate reset token." }
            state := cleanupState s o user.therapistId, emailAttempted := false }
        else
          { resp := { status := 200, success := true
                      message := "If your account exists, a reset link has been sent to your email." }
            state := upsertToken (cleanupState s o user.therapistId)
                       (mintedRecord o user.therapistId (normalize rawEmail))
            emailAttempted := true }

/-- An etag condition on a conditional table update: the wildcard `'*'`
(match any version) or a specific version. -/
inductive EtagCond where
  | wildcard : EtagCond
  | exact : Nat → EtagCond
  deriving DecidableEq, Repr

/-- The etag condition the source passes to the mark-as-used
`updateEntity` call: `etag: '*'`, the wildcard. -/
def markUsedCond : EtagCond := EtagCond.wildcard

/-- The per-row effect of the mark-as-used merge update on the row with
the given code. -/
def setUsedRow (code : String) (r : TokenRecord) : TokenRecord :=
  if r.code == code then { r with used := true, etag := r.etag + 1 } else r

/-- Merge-updates the token with the given code to `used := true`,
advancing its entity version. -/
def markTokenUsed (s : SysState) (code : String) : SysState :=
  { s with resetRequests := s.resetRequests.map (setUsedRow code) }

/-- Embeds `updateEntity({partitionKey:'reset', rowKey:code, used:true,
etag}, 'Merge')`: fails (`none`) when no entity with the key exists, or
when an exact etag condition does not match the current version;
otherwise merge-updates `used := true`. -/
def updateTokenUsedCond (cond : EtagCond) (s : SysState) (code : String) : Option SysState :=
  match s.resetRequests.find? (fun r => r.code == code) with
  | none => none
  | some r =>
      match cond with
      | EtagCond.wildcard => some (markTokenUsed s code)
      | EtagCond.exact e => if r.etag == e then some (markTokenUsed s code) else none

/-- Embeds `deleteEntity('reset', code)` (the best-effort delete of an
expired or used record). -/
def deleteToken (s : SysState) (code : String) : SysState :=
  { s with resetRequests := s.resetRequests.filter (fun r => !(r.code == code)) }

/-- The per-row effect of the password-hash merge update on the prospect
keyed by the given email. -/
def setPwRow (email hash : String) (u : UserRecord) : UserRecord :=
  if u.email == email then { u with hashedPassword := hash, etag := u.etag + 1 } else u

/-- Merge-updates the prospect keyed by `email` with a new password hash,
advancing its entity version. -/
def setPassword (s : SysState) (email hash : String) : SysState :=
  { s with prospects := s.prospects.map (setPwRow email hash) }

/-- True when a prospect row with the given key exists (the wildcard-etag
`updateEntity` on `prospects` fails only when the entity is absent). -/
def userExists (s : SysState) (email : String) : Bool :=
  s.prospects.any (fun u => u.email == email)

/-- Oracle for one redemption call: success of each fallible external
step, the current time, and the salted bcrypt output for the new
password. -/
structure RedeemOracle where
  getTokenOk : Bool
  deleteOk : Bool
  markUsedOk : Bool
  userQueryOk : Bool
  pwUpdateOk : Bool
  now : Nat
  hashed : String
  deriving Repr

/-- The password-policy failure message of the `resetpassword` handler. -/
def passwordPolicyMsg : String :=
  "Password must be 8-128 characters with at least one uppercase letter, one lowercase letter, and one digit. HTML characters are not allowed."

/-- Embeds the `resetpassword` handler from the point where the token
record has been fetched: the email-match check, the expiry/usage check
with best-effort delete, the wildcard-etag mark-as-used update, the
owner lookup by therapistId, and the password-hash write.  All checks on
the record use the fetched snapshot `codeRec`, exactly as the source
does. -/
def redeemAfterFetch (s : SysState) (o : RedeemOracle) (email code : String)
    (codeRec : TokenRecord) : HttpResponse × SysState :=
  if normalize codeRec.email != email then
    ({ status := 400, success := false, message := "Invalid code or email." }, s)
  else if decide (codeRec.expiresAt ≤ o.now) || codeRec.used then
    ({ status := 400, success := false, message := "Code has expired or already been used." },
     if o.deleteOk then deleteToken s code else s)
  else
    match (if o.markUsedOk then updateTokenUsedCond markUsedCond s code else none) with
    | none => ({ status := 500, success := false, message := "Server error." }, s)
    | some s1 =>
        match (if o.userQueryOk then findUserByTid s1.prospects codeRec.therapistId else none) with
        | none => ({ status := 400, success := false, message := "Account not found." }, s1)
        | some user =>
            if o.pwUpdateOk && userExists s1 user.email then
              ({ status := 200, success := true, message := "Password reset successfully." },
               setPassword s1 user.email o.hashed)
            else
              ({ status := 500, success := false, message := "Failed to update password." }, s1)

/-- Embeds the `resetpassword` handler body, from input validation on
(JSON parsing and CORS preflight are transport concerns outside the
model): validate the three fields, fetch the token record by code (any
fetch failure, absence included, yields the generic invalid-code
response), then continue with `redeemAfterFetch`. -/
def resetPassword (s : SysState) (o : RedeemOracle) (rawEmail code newPassword : String) :
    HttpResponse × SysState :=
  if (normalize rawEmail).isEmpty || !isValidEmail (normalize rawEmail) then
    ({ status := 400, success := false, message := "Valid email is required." }, s)
  else if !isSixDigits code then
    ({ status := 400, success := false, message := "Valid 6-digit code is required." }, s)
  else if !isValidPassword newPassword then
    ({ status := 400, success := false, message := passwordPolicyMsg }, s)
  else
    match (if o.getTokenOk then findToken s code else none) with
    | none => ({ status := 400, success := false, message := "Invalid or expired code." }, s)
    | some codeRec => redeemAfterFetch s o (normalize rawEmail) code codeRec

/-! Decimal-rendering lemmas: the minted code, `toString` of a natural in
100000..999999, is a string of exactly six digit characters. -/

/-- Decimal digit characters of `n`, most significant first; reference
rendering used to reason about `Nat.toDigitsCore`. -/
def natChars (n : Nat) : List Char :=
  if h : n / 10 = 0 then [Nat.digitChar (n % 10)]
  else natChars (n / 10) ++ [Nat.digitChar (n % 10)]
  decreasing_by
    exact Nat.div_lt_self (Nat.pos_of_ne_zero (fun hn => h (by simp [hn]))) (by decide)

theorem toDigitsCore_eq_natChars :
    ∀ (f n : Nat) (ds : List Char), n < f →
      Nat.toDigitsCore 10 f n ds = natChars n ++ ds := by
  intro f
  induction f with
  | zero => intro n ds h; omega
  | succ f ih =>
      intro n ds h
      rw [Nat.toDigitsCore]
      by_cases h0 : n / 10 = 0
      · rw [if_pos h0]
        rw [natChars, dif_pos h0]
        simp
      · rw [if_neg h0]
        have hpos : 0 < n := by
          rcases Nat.eq_zero_or_pos n with h2 | h2
          · exact absurd (by simp [h2]) h0
          · exact h2
        have hlt : n / 10 < f := by
          have := Nat.div_lt_self hpos (by decide : 1 < 10)
          omega
        rw [ih (n / 10) _ hlt]
        conv_rhs => rw [natChars, dif_neg h0]
        simp

theorem natChars_length :
    ∀ (k n : Nat), 10 ^ k ≤ n → n < 10 ^ (k + 1) → (natChars n).length = k + 1 := by
  intro k
  induction k with
  | zero =>
      intro n h1 h2
      have h0 : n / 10 = 0 := Nat.div_eq_of_lt (by simpa using h2)
      rw [natChars, dif_pos h0]
      rfl
  | succ k ih =>
      intro n h1 h2
      have h10 : (10 : Nat) ≤ 10 ^ (k + 1) := by
        calc (10 : Nat) = 10 ^ 1 := by norm_num
        _ ≤ 10 ^ (k + 1) := Nat.pow_le_pow_right (by decide) (by omega)
      have h0 : ¬(n / 10 = 0) := by
        intro h0
        have hn : n < 10 := (Nat.div_eq_zero_iff (by decide)).mp h0
        omega
      rw [natChars, dif_neg h0]
      have hd1 : 10 ^ k ≤ n / 10 := by
        refine (Nat.le_div_iff_mul_le (by decide : 0 < 10)).mpr ?_
        calc 10 ^ k * 10 = 10 ^ (k + 1) := by ring
        _ ≤ n := h1
      have hd2 : n / 10 < 10 ^ (k + 1) := by
        rw [Nat.div_lt_iff_lt_mul (by decide : 0 < 10)]
        calc n < 10 ^ (k + 1 + 1) := h2
        _ = 10 ^ (k + 1) * 10 := by ring
      rw [List.length_append, ih (n / 10) hd1 hd2]
      rfl

theorem natChars_all_digits : ∀ n : Nat, (natChars n).all Char.isDigit = true := by
  intro n
  induction n using Nat.strong_induction_on with
  | _ n ih =>
      rw [natChars]
      by_cases h0 : n / 10 = 0
      · rw [dif_pos h0]
        have hm : n % 10 < 10 := Nat.mod_lt n (by decide)
        have hdig : ∀ m, m < 10 → Char.isDigit (Nat.digitChar m) = true := by decide
        simp [hdig _ hm]
      · rw [dif_neg h0]
        have hpos : 0 < n := by
          rcases Nat.eq_zero_or_pos n with h2 | h2
          · exact absurd (by simp [h2]) h0
          · exact h2
        have hlt : n / 10 < n := Nat.div_lt_self hpos (by decide)
        have hm : n % 10 < 10 := Nat.mod_lt n (by decide)
        have hdig : ∀ m, m < 10 → Char.isDigit (Nat.digitChar m) = true := by decide
        simp [List.all_append, ih _ hlt, hdig _ hm]

theorem isSixDigits_toString (n : Nat) (h1 : 100000 ≤ n) (h2 : n < 1000000) :
    isSixDigits (toString n) = true := by
  have he : toString n = (natChars n).asString := by
    show Nat.repr n = (natChars n).asString
    rw [Nat.repr, Nat.toDigits, toDigitsCore_eq_natChars (n + 1) n [] (Nat.lt_succ_self n)]
    simp
  have hlen : (natChars n).length = 6 := by
    have := natChars_length 5 n (by omega) (by norm_num; omega)
    omega
  rw [isSixDigits, he]
  have htl : ((natChars n).asString).toList = natChars n := rfl
  rw [htl, hlen]
  simp [natChars_all_digits n]

/-- The minted code always lies in the 6-digit range. -/
theorem mintCode_range (rand : Nat) : 100000 ≤ mintCode rand ∧ mintCode rand ≤ 999999 := by
  unfold mintCode
  have := Nat.mod_lt rand (by decide : 0 < 900000)
  omega

/-! Generic association-list lemmas shared by the store-operation proofs. -/

theorem find?_map_pres {α : Type} (l : List α) (g : α → α) (p : α → Bool)
    (hg : ∀ x, p (g x) = p x) :
    (l.map g).find? p = (l.find? p).map g := by
  rw [List.find?_map]
  have hcomp : (p ∘ g) = p := funext hg
  rw [hcomp]

/-! Store-operation lemmas. -/

theorem replaceWith_code (t r : TokenRecord) : (replaceWith t r).code = r.code := by
  by_cases h : r.code = t.code
  · simp [replaceWith, h]
  · simp [replaceWith, h]

theorem setUsedRow_code (c : String) (r : TokenRecord) : (setUsedRow c r).code = r.code := by
  by_cases h : r.code = c
  · simp [setUsedRow, h]
  · simp [setUsedRow, h]

theorem findToken_upsert_ne (s : SysState) (t : TokenRecord) (c : String) (hne : c ≠ t.code) :
    findToken (upsertToken s t) c = findToken s c := by
  unfold findToken upsertToken
  by_cases h : s.resetRequests.any (fun r => r.code == t.code)
  · rw [if_pos h]
    show (s.resetRequests.map (replaceWith t)).find? (fun r => r.code == c) = _
    rw [find?_map_pres _ _ _ (fun x => by rw [replaceWith_code])]
    cases hf : s.resetRequests.find? (fun r => r.code == c) with
    | none => rfl
    | some r =>
        have hc : r.code = c := by simpa using List.find?_some hf
        have : replaceWith t r = r := by
          have : ¬(r.code = t.code) := by rw [hc]; exact hne
          simp [replaceWith, this]
        simp [this]
  · rw [if_neg h]
    show (s.resetRequests ++ [t]).find? (fun r => r.code == c) = _
    rw [List.find?_append]
    have : ([t].find? (fun r => r.code == c)) = none := by
      have : ¬(t.code = c) := fun hh => hne hh.symm
      simp [this]
    simp [this]

theorem findToken_upsert_self (s : SysState) (t : TokenRecord) :
    ∃ n, findToken (upsertToken s t) t.code = some { t with etag := n } := by
  unfold findToken upsertToken
  by_cases h : s.resetRequests.any (fun r => r.code == t.code)
  · rw [if_pos h]
    show ∃ n, (s.resetRequests.map (replaceWith t)).find? (fun r => r.code == t.code) = _
    rw [find?_map_pres _ _ _ (fun x => by rw [replaceWith_code])]
    obtain ⟨r, hmem, hpr⟩ := List.any_eq_true.mp h
    have hs : (s.resetRequests.find? (fun r => r.code == t.code)).isSome := by
      rw [List.find?_isSome]
      exact ⟨r, hmem, hpr⟩
    obtain ⟨r', hf⟩ := Option.isSome_iff_exists.mp hs
    have hc : r'.code = t.code := by simpa using List.find?_some hf
    refine ⟨r'.etag + 1, ?_⟩
    rw [hf]
    simp [replaceWith, hc]
  · rw [if_neg h]
    refine ⟨t.etag, ?_⟩
    show (s.resetRequests ++ [t]).find? (fun r => r.code == t.code) = _
    rw [List.find?_append]
    have hnone : s.resetRequests.find? (fun r => r.code == t.code) = none := by
      rw [List.find?_eq_none]
      intro x hx hpx
      exact h (List.any_eq_true.mpr ⟨x, hx, hpx⟩)
    rw [hnone]
    simp

theorem upsert_fresh (s : SysState) (t : TokenRecord)
    (hfresh : ∀ r ∈ s.resetRequests, r.code ≠ t.code) :
    (upsertToken s t).resetRequests = s.resetRequests ++ [t] := by
  unfold upsertToken
  have h : s.resetRequests.any (fun r => r.code == t.code) = false := by
    rw [List.any_eq_false]
    intro x hx
    simp only [beq_iff_eq]
    exact hfresh x hx
  rw [h]
  simp

theorem mem_upsert_of_code_ne (s : SysState) (t : TokenRecord) (r : TokenRecord)
    (hmem : r ∈ (upsertToken s t).resetRequests) (hne : r.code ≠ t.code) :
    r ∈ s.resetRequests := by
  unfold upsertToken at hmem
  by_cases h : s.resetRequests.any (fun x => x.code == t.code)
  · rw [if_pos h] at hmem
    obtain ⟨x, hx, hxe⟩ := List.mem_map.mp hmem
    by_cases hc : x.code = t.code
    · exfalso
      apply hne
      rw [← hxe]
      rw [replaceWith_code]
      exact hc
    · have : replaceWith t x = x := by simp [replaceWith, hc]
      rw [this] at hxe
      rw [← hxe]
      exact hx
  · rw [if_neg h] at hmem
    rcases List.mem_append.mp hmem with h1 | h1
    · exact h1
    · exfalso
      have hrt : r = t := by simpa using h1
      exact hne (by rw [hrt])

theorem findToken_markUsed_self (s : SysState) (c : String) (r : TokenRecord)
    (h : findToken s c = some r) :
    findToken (markTokenUsed s c) c = some { r with used := true, etag := r.etag + 1 } := by
  unfold findToken at h
  unfold findToken markTokenUsed
  show (s.resetRequests.map (setUsedRow c)).find? (fun x => x.code == c) = _
  rw [find?_map_pres _ _ _ (fun x => by rw [setUsedRow_code])]
  rw [h]
  have hc : r.code = c := by simpa using List.find?_some h
  simp [setUsedRow, hc]

theorem findUserByTid_setPassword (s : SysState) (e h tid : String) :
    findUserByTid (setPassword s e h).prospects tid =
      (findUserByTid s.prospects tid).map (setPwRow e h) := by
  unfold findUserByTid setPassword
  show (s.prospects.map (setPwRow e h)).find? (fun u => u.therapistId == tid) = _
  refine find?_map_pres _ _ _ (fun u => ?_)
  by_cases hu : u.email = e
  · simp [setPwRow, hu]
  · simp [setPwRow, hu]

theorem userExists_of_find (ps : List UserRecord) (tid : String) (u : UserRecord)
    (h : ps.find? (fun x => x.therapistId == tid) = some u) :
    ps.any (fun x => x.email == u.email) = true := by
  have hmem : u ∈ ps := List.mem_of_find?_eq_some h
  exact List.any_eq_true.mpr ⟨u, hmem, by simp⟩

/-- Token-store invariant: every record with the given code is used. -/
def usedAt (s : SysState) (c : String) : Prop :=
  ∀ r ∈ s.resetRequests, r.code = c → r.used = true

theorem usedAt_mono (s s' : SysState) (c : String)
    (h : ∀ r ∈ s'.resetRequests, r ∈ s.resetRequests) :
    usedAt s c → usedAt s' c :=
  fun hu r hr hc => hu r (h r hr) hc

theorem usedAt_markUsed (s : SysState) (c' c : String) :
    usedAt s c → usedAt (markTokenUsed s c') c := by
  intro hu r hr hc
  obtain ⟨x, hx, hxe⟩ := List.mem_map.mp hr
  by_cases hxc : x.code = c'
  · have : r.used = true := by
      rw [← hxe]
      simp [setUsedRow, hxc]
    exact this
  · have hre : r = x := by rw [← hxe]; simp [setUsedRow, hxc]
    rw [hre] at hc ⊢
    exact hu x hx hc

theorem usedAt_upsert_ne (s : SysState) (t : TokenRecord) (c : String) (hne : c ≠ t.code) :
    usedAt s c → usedAt (upsertToken s t) c := by
  intro hu r hr hc
  have : r ∈ s.resetRequests := by
    refine mem_upsert_of_code_ne s t r hr ?_
    rw [hc]
    exact hne
  exact hu r this hc

theorem updateTokenUsedCond_wildcard_eq (s s1 : SysState) (c : String)
    (h : updateTokenUsedCond EtagCond.wildcard s c = some s1) :
    s1 = markTokenUsed s c := by
  unfold updateTokenUsedCond at h
  cases hf : s.resetRequests.find? (fun r => r.code == c) with
  | none => rw [hf] at h; exact absurd h (by simp)
  | some r => rw [hf] at h; simpa using h.symm

theorem usedAt_deleteToken (s : SysState) (c cc : String) :
    usedAt s cc → usedAt (deleteToken s c) cc := by
  refine usedAt_mono _ _ _ (fun r hr => ?_)
  have hr' : r ∈ s.resetRequests.filter (fun x => !(x.code == c)) := hr
  exact (List.mem_filter.mp hr').1

theorem usedAt_deleteStale (s : SysState) (tid : String) (now : Nat) (cc : String) :
    usedAt s cc → usedAt (deleteStale s tid now) cc := by
  refine usedAt_mono _ _ _ (fun r hr => ?_)
  have hr' : r ∈ s.resetRequests.filter (fun t => !(t.therapistId == tid && isStale now t)) := hr
  exact (List.mem_filter.mp hr').1

theorem usedAt_setPassword (s : SysState) (e h cc : String) :
    usedAt s cc → usedAt (setPassword s e h) cc :=
  fun hu => hu

/-- Redemption never resets a used flag: every store state reachable from
one whose records at `cc` are all used keeps them (or their successors at
that code) used. -/
theorem usedAt_redeemAfterFetch (s : SysState) (o : RedeemOracle) (e c : String)
    (codeRec : TokenRecord) (cc : String) :
    usedAt s cc → usedAt (redeemAfterFetch s o e c codeRec).2 cc := by
  intro h
  unfold redeemAfterFetch
  split
  · exact h
  · split
    · dsimp only
      split
      · exact usedAt_deleteToken s c cc h
      · exact h
    · split
      · exact h
      · next s1 heq =>
          have hs1 : s1 = markTokenUsed s c := by
            cases hmk : o.markUsedOk with
            | false => rw [hmk] at heq; exact absurd heq (by simp)
            | true =>
                rw [hmk] at heq
                simp only [if_pos] at heq
                exact updateTokenUsedCond_wildcard_eq s s1 c heq
          split
          · dsimp only
            rw [hs1]
            exact usedAt_markUsed s c cc h
          · next user heq2 =>
              split
              · dsimp only
                rw [hs1]
                exact usedAt_setPassword _ _ _ _ (usedAt_markUsed s c cc h)
              · dsimp only
                rw [hs1]
                exact usedAt_markUsed s c cc h

/-- Redemption preserves the used flag of every token record. -/
theorem usedAt_resetPassword (s : SysState) (o : RedeemOracle) (e c pw cc : String) :
    usedAt s cc → usedAt (resetPassword s o e c pw).2 cc := by
  intro h
  unfold resetPassword
  split
  · exact h
  · split
    · exact h
    · split
      · exact h
      · split
        · exact h
        · exact usedAt_redeemAfterFetch s o _ c _ cc h

theorem usedAt_cleanupState (s : SysState) (o : IssueOracle) (tid cc : String) :
    usedAt s cc → usedAt (cleanupState s o tid) cc := by
  intro h
  unfold cleanupState
  split
  · exact usedAt_deleteStale _ _ _ _ h
  · exact h

/-- Issuance preserves the used flag of every token record whose code
differs from the minted code. -/
theorem usedAt_requestPasswordReset (s : SysState) (o : IssueOracle) (raw cc : String)
    (hne : cc ≠ toString (mintCode o.rand)) :
    usedAt s cc → usedAt (requestPasswordReset s o raw).state cc := by
  intro h
  unfold requestPasswordReset
  split
  · exact h
  · split
    · exact h
    · next user heq =>
        split
        · exact usedAt_cleanupState _ _ _ _ h
        · split
          · exact usedAt_cleanupState _ _ _ _ h
          · refine usedAt_upsert_ne _ _ _ ?_ (usedAt_cleanupState _ _ _ _ h)
            exact hne

instance (s : SysState) (c : String) : Decidable (usedAt s c) := by
  unfold usedAt
  infer_instance

/-! Concrete fixtures used by witnesses and counterexamples. -/

/-- A stored user. -/
def alice : UserRecord :=
  { email := "alice@example.com", therapistId := "t1", hashedPassword := "oldhash", etag := 0 }

/-- A used token belonging to a different owner, keyed by code 123456. -/
def bobUsedToken : TokenRecord :=
  { code := "123456", therapistId := "t2", email := "bob@example.com",
    createdAt := 0, expiresAt := 10, used := true, etag := 5 }

/-- An active token of another owner under code 123456. -/
def bobActiveToken : TokenRecord :=
  { code := "123456", therapistId := "t2", email := "bob@example.com",
    createdAt := 0, expiresAt := 999999, used := false, etag := 0 }

/-- First active token of alice. -/
def aliceActive1 : TokenRecord :=
  { code := "111111", therapistId := "t1", email := "alice@example.com",
    createdAt := 0, expiresAt := 999999, used := false, etag := 0 }

/-- Second active token of alice. -/
def aliceActive2 : TokenRecord :=
  { code := "222222", therapistId := "t1", email := "alice@example.com",
    createdAt := 0, expiresAt := 999999, used := false, etag := 0 }

/-- An active token of alice under code 654321. -/
def aliceToken : TokenRecord :=
  { code := "654321", therapistId := "t1", email := "alice@example.com",
    createdAt := 0, expiresAt := 999999, used := false, etag := 0 }

/-- A used token of alice under code 999999. -/
def aliceUsedToken : TokenRecord :=
  { code := "999999", therapistId := "t1", email := "alice@example.com",
    createdAt := 0, expiresAt := 10, used := true, etag := 1 }

/-- Issuance oracle with every external step succeeding; the random draw
23456 makes the minted code 123456. -/
def okIssueOracle : IssueOracle :=
  { userLookupOk := true, queryOk := true, batchDeleteOk := true, upsertOk := true,
    emailSendOk := true, rand := 23456, now := 1000 }

/-- Redemption oracle with every external step succeeding. -/
def okRedeemOracle : RedeemOracle :=
  { getTokenOk := true, deleteOk := true, markUsedOk := true, userQueryOk := true,
    pwUpdateOk := true, now := 1000, hashed := "newhash" }

/-- Store holding only the user alice. -/
def aliceOnlyState : SysState :=
  { prospects := [alice], resetRequests := [] }

/-- Store holding alice and two active tokens of hers. -/
def twoActiveState : SysState :=
  { prospects := [alice], resetRequests := [aliceActive1, aliceActive2] }

/-! Claim theorems. -/

/-- C10: with a valid email, a failing user lookup — store outage or
genuinely absent account alike — produces the one 200 AccountNotFound
response with redirectTo "/subscribe" and leaves the state untouched. -/
theorem lookupFailureUniformResponse (s : SysState) (o : IssueOracle) (raw : String)
    (hv : isValidEmail raw = true)
    (hfail : o.userLookupOk = false ∨ findUserByEmail s.prospects (normalize raw) = none) :
    requestPasswordReset s o raw =
      { resp := { status := 200, success := false, message := "Account not found."
                  redirectTo := some "/subscribe" }
        state := s, emailAttempted := false } := by
  unfold requestPasswordReset
  rcases hfail with h | h
  · simp [hv, h]
  · cases hlk : o.userLookupOk with
    | false => simp [hv, hlk]
    | true => simp [hv, hlk, h]

/-- C10 witness: the store-outage case and the absent-account case at a
concrete input, both yielding the AccountNotFound response. -/
theorem lookupFailureUniformResponse_witness :
    requestPasswordReset aliceOnlyState { okIssueOracle with userLookupOk := false }
        "alice@example.com" =
      { resp := { status := 200, success := false, message := "Account not found."
                  redirectTo := some "/subscribe" }
        state := aliceOnlyState, emailAttempted := false } ∧
    requestPasswordReset { prospects := [], resetRequests := [] } okIssueOracle
        "alice@example.com" =
      { resp := { status := 200, success := false, message := "Account not found."
                  redirectTo := some "/subscribe" }
        state := { prospects := [], resetRequests := [] }, emailAttempted := false } := by
  constructor
  · exact lookupFailureUniformResponse aliceOnlyState
      { okIssueOracle with userLookupOk := false } "alice@example.com"
      (by decide) (Or.inl (by decide))
  · exact lookupFailureUniformResponse { prospects := [], resetRequests := [] } okIssueOracle
      "alice@example.com" (by decide) (Or.inr (by decide))

/-- C7: once the token is persisted, the issuance response is the uniform
200 success and the notification step was attempted; the response and the
whole call result do not depend on whether the notification send
succeeds. -/
theorem issuanceSwallowsEmailFailure (s : SysState) (o : IssueOracle) (raw : String)
    (u : UserRecord)
    (hv : isValidEmail raw = true)
    (hlk : o.userLookupOk = true)
    (hfound : findUserByEmail s.prospects (normalize raw) = some u)
    (hnolimit : rateLimitHit s o u.therapistId = false)
    (hupsert : o.upsertOk = true) :
    (requestPasswordReset s o raw).resp =
      { status := 200, success := true
        message := "If your account exists, a reset link has been sent to your email." } ∧
    (requestPasswordReset s o raw).emailAttempted = true ∧
    (∀ b : Bool, requestPasswordReset s { o with emailSendOk := b } raw =
      requestPasswordReset s o raw) := by
  refine ⟨?_, ?_, fun b => rfl⟩ <;>
    · unfold requestPasswordReset
      simp [hv, hlk, hfound, hnolimit, hupsert]

/-- C7 witness: a concrete issuance that reaches the notification step
returns the uniform success for a succeeding and for a failing send. -/
theorem issuanceSwallowsEmailFailure_witness :
    (requestPasswordReset aliceOnlyState okIssueOracle "alice@example.com").resp =
      { status := 200, success := true
        message := "If your account exists, a reset link has been sent to your email." } ∧
    requestPasswordReset aliceOnlyState { okIssueOracle with emailSendOk := false }
        "alice@example.com" =
      requestPasswordReset aliceOnlyState okIssueOracle "alice@example.com" := by
  have h := issuanceSwallowsEmailFailure aliceOnlyState okIssueOracle "alice@example.com" alice
    (by decide) (by decide) (by decide) (by decide) (by decide)
  exact ⟨h.1, h.2.2 false⟩

/-- C8: each of the three input-validation failures of redemption yields
its own fixed 400 response with the state untouched, and the response of
a validation-failing call is the same for every store state and oracle:
no store is read or written. -/
theorem redeemValidationShortCircuit (s s2 : SysState) (o o2 : RedeemOracle)
    (raw code pw : String) :
    (((normalize raw).isEmpty || !isValidEmail (normalize raw)) = true →
      resetPassword s o raw code pw =
        ({ status := 400, success := false, message := "Valid email is required." }, s)) ∧
    (((normalize raw).isEmpty || !isValidEmail (normalize raw)) = false →
      isSixDigits code = false →
      resetPassword s o raw code pw =
        ({ status := 400, success := false, message := "Valid 6-digit code is required." }, s)) ∧
    (((normalize raw).isEmpty || !isValidEmail (normalize raw)) = false →
      isSixDigits code = true → isValidPassword pw = false →
      resetPassword s o raw code pw =
        ({ status := 400, success := false, message := passwordPolicyMsg }, s)) ∧
    ((((normalize raw).isEmpty || !isValidEmail (normalize raw)) = true ∨
        isSixDigits code = false ∨ isValidPassword pw = false) →
      (resetPassword s o raw code pw).1 = (resetPassword s2 o2 raw code pw).1) := by
  refine ⟨?_, ?_, ?_, ?_⟩
  · intro he
    unfold resetPassword
    simp [he]
  · intro he hc
    unfold resetPassword
    simp [he, hc]
  · intro he hc hp
    unfold resetPassword
    simp [he, hc, hp]
  · intro hbad
    cases he : ((normalize raw).isEmpty || !isValidEmail (normalize raw)) with
    | true =>
        unfold resetPassword
        simp [he]
    | false =>
        cases hc : isSixDigits code with
        | false =>
            unfold resetPassword
            simp [he, hc]
        | true =>
            cases hp : isValidPassword pw with
            | false =>
                unfold resetPassword
                simp [he, hc, hp]
            | true =>
                rcases hbad with h | h | h
                · rw [he] at h; exact absurd h (by simp)
                · rw [hc] at h; exact absurd h (by simp)
                · rw [hp] at h; exact absurd h (by simp)

/-- C8 witness: the spec's example, password "abcdefgh" (no uppercase or
digit), is rejected with the password-policy message and no store
effect, at two different store states. -/
theorem redeemValidationShortCircuit_witness :
    resetPassword twoActiveState okRedeemOracle "alice@example.com" "123456" "abcdefgh" =
      ({ status := 400, success := false, message := passwordPolicyMsg }, twoActiveState) ∧
    (resetPassword twoActiveState okRedeemOracle "alice@example.com" "123456" "abcdefgh").1 =
      (resetPassword aliceOnlyState okRedeemOracle "alice@example.com" "123456" "abcdefgh").1 := by
  have h := redeemValidationShortCircuit twoActiveState aliceOnlyState okRedeemOracle
    okRedeemOracle "alice@example.com" "123456" "abcdefgh"
  exact ⟨h.2.2.1 (by decide) (by decide) (by decide),
         h.2.2.2 (Or.inr (Or.inr (by decide)))⟩

/-- C5: a redemption whose code is absent, owned by another email,
expired, or already used returns status 400 and leaves the user store —
in particular every hashed password — untouched. -/
theorem redeemFailureLeavesUserUnchanged (s : SysState) (o : RedeemOracle)
    (raw code pw : String)
    (h1 : (normalize raw).isEmpty = false)
    (h2 : isValidEmail (normalize raw) = true)
    (h3 : isSixDigits code = true)
    (h4 : isValidPassword pw = true)
    (hbad : findToken s code = none ∨
      ∃ r, findToken s code = some r ∧
        (normalize r.email ≠ normalize raw ∨ r.expiresAt ≤ o.now ∨ r.used = true)) :
    (resetPassword s o raw code pw).1.status = 400 ∧
    (resetPassword s o raw code pw).2.prospects = s.prospects := by
  unfold resetPassword
  simp only [h1, h2, h3, h4, Bool.false_or, Bool.not_true, if_false, Bool.not_false, if_true]
  cases hget : o.getTokenOk with
  | false => simp
  | true =>
      simp only [if_true, if_pos rfl]
      rcases hbad with h | ⟨r, hr, hcond⟩
      · simp [h]
      · rw [hr]
        simp only
        unfold redeemAfterFetch
        by_cases hm : normalize r.email = normalize raw
        · have hmb : (normalize r.email != normalize raw) = false := by
            simp [hm]
          have hcond2 : (decide (r.expiresAt ≤ o.now) || r.used) = true := by
            rcases hcond with h | h | h
            · exact absurd hm h
            · simp [h]
            · simp [h]
          rw [hmb]
          simp only [Bool.false_eq_true, if_false, hcond2, if_true]
          refine ⟨trivial, ?_⟩
          cases o.deleteOk <;> simp [deleteToken]
        · have hmb : (normalize r.email != normalize raw) = true := by
            simp [hm]
          rw [hmb]
          simp

/-- C5 witness: redeeming a code that exists under another email returns
400 and leaves the user record unchanged. -/
theorem redeemFailureLeavesUserUnchanged_witness :
    (resetPassword { prospects := [alice], resetRequests := [bobActiveToken] } okRedeemOracle
        "alice@example.com" "123456" "Abcdefg1").1.status = 400 ∧
    (resetPassword { prospects := [alice], resetRequests := [bobActiveToken] } okRedeemOracle
        "alice@example.com" "123456" "Abcdefg1").2.prospects = [alice] := by
  exact redeemFailureLeavesUserUnchanged
    { prospects := [alice], resetRequests := [bobActiveToken] } okRedeemOracle
    "alice@example.com" "123456" "Abcdefg1"
    (by decide) (by decide) (by decide) (by decide)
    (Or.inr ⟨bobActiveToken, by decide, Or.inl (by decide)⟩)

theorem findToken_code (s : SysState) (c : String) (r : TokenRecord)
    (h : findToken s c = some r) : r.code = c ∧ r ∈ s.resetRequests := by
  unfold findToken at h
  exact ⟨by simpa using List.find?_some h, List.mem_of_find?_eq_some h⟩

theorem redeemAfterFetch_used_status400 (s : SysState) (o : RedeemOracle) (e c : String)
    (codeRec : TokenRecord) (hu : codeRec.used = true) :
    (redeemAfterFetch s o e c codeRec).1.status = 400 := by
  unfold redeemAfterFetch
  split
  · rfl
  · split
    · rfl
    · next h2 =>
        exfalso
        apply h2
        simp [hu]

/-- Any redemption attempt against a store in which every record with the
given code is already used fails (non-200) and keeps that invariant. -/
theorem resetPassword_usedAt_fails (s : SysState) (o : RedeemOracle) (raw code pw : String)
    (hu : usedAt s code) :
    (resetPassword s o raw code pw).1.status ≠ 200 ∧
    usedAt (resetPassword s o raw code pw).2 code := by
  refine ⟨?_, usedAt_resetPassword s o raw code pw code hu⟩
  unfold resetPassword
  split
  · simp
  · split
    · simp
    · split
      · simp
      · split
        · simp
        · next codeRec heq =>
            have hfind : findToken s code = some codeRec := by
              cases hget : o.getTokenOk with
              | false => rw [hget] at heq; exact absurd heq (by simp)
              | true => rw [hget] at heq; simpa using heq
            obtain ⟨hcode, hmem⟩ := findToken_code s code codeRec hfind
            have hused : codeRec.used = true := hu codeRec hmem hcode
            have h400 := redeemAfterFetch_used_status400 s o (normalize raw) code codeRec hused
            omega

/-- The mark-as-used update on a fetched record succeeds and produces
exactly the marked store. -/
theorem updateTokenUsedCond_of_find (s : SysState) (code : String) (r : TokenRecord)
    (hfind : findToken s code = some r) :
    updateTokenUsedCond markUsedCond s code = some (markTokenUsed s code) := by
  unfold updateTokenUsedCond markUsedCond
  unfold findToken at hfind
  rw [hfind]

/-- C9: redemption is not atomic — when the mark-as-used step succeeds
but the owner lookup or the password write then fails, the call returns
the corresponding failure while the token is already consumed
(`used = true`) and the user store is untouched, and no later redemption
of that code can return 200. -/
theorem redeemNonAtomicTokenConsumed (s : SysState) (o : RedeemOracle)
    (raw code pw : String) (r : TokenRecord)
    (h1 : (normalize raw).isEmpty = false)
    (h2 : isValidEmail (normalize raw) = true)
    (h3 : isSixDigits code = true)
    (h4 : isValidPassword pw = true)
    (hget : o.getTokenOk = true)
    (hfind : findToken s code = some r)
    (hemail : normalize r.email = normalize raw)
    (hexp : o.now < r.expiresAt)
    (hused : r.used = false)
    (hmk : o.markUsedOk = true) :
    ((o.userQueryOk = false ∨ findUserByTid s.prospects r.therapistId = none) →
      resetPassword s o raw code pw =
        ({ status := 400, success := false, message := "Account not found." },
         markTokenUsed s code)) ∧
    (∀ u, o.userQueryOk = true → findUserByTid s.prospects r.therapistId = some u →
      o.pwUpdateOk = false →
      resetPassword s o raw code pw =
        ({ status := 500, success := false, message := "Failed to update password." },
         markTokenUsed s code)) ∧
    (findToken (markTokenUsed s code) code = some { r with used := true, etag := r.etag + 1 } ∧
      (markTokenUsed s code).prospects = s.prospects) ∧
    (∀ s2 o2 raw2 pw2, usedAt s2 code →
      (resetPassword s2 o2 raw2 code pw2).1.status ≠ 200 ∧
      usedAt (resetPassword s2 o2 raw2 code pw2).2 code) := by
  have hpath : resetPassword s o raw code pw = redeemAfterFetch s o (normalize raw) code r := by
    unfold resetPassword
    simp [h1, h2, h3, h4, hget, hfind]
  have hmb : (normalize r.email != normalize raw) = false := by simp [hemail]
  have hnexp : ¬(r.expiresAt ≤ o.now) := by omega
  have hce : (decide (r.expiresAt ≤ o.now) || r.used) = false := by simp [hnexp, hused]
  have hupd := updateTokenUsedCond_of_find s code r hfind
  refine ⟨?_, ?_, ?_, ?_⟩
  · intro hfail
    rw [hpath]
    unfold redeemAfterFetch
    rw [hmb, hce]
    simp only [Bool.false_eq_true, if_false, hmk, if_true, hupd]
    rcases hfail with hq | hn
    · simp [hq]
    · have : findUserByTid (markTokenUsed s code).prospects r.therapistId = none := hn
      simp [this]
  · intro u hq hu hpw
    rw [hpath]
    unfold redeemAfterFetch
    rw [hmb, hce]
    simp only [Bool.false_eq_true, if_false, hmk, if_true, hupd]
    have : findUserByTid (markTokenUsed s code).prospects r.therapistId = some u := hu
    simp [hq, this, hpw]
  · exact ⟨findToken_markUsed_self s code r hfind, rfl⟩
  · intro s2 o2 raw2 pw2 hu2
    exact resetPassword_usedAt_fails s2 o2 raw2 code pw2 hu2

/-- C9 witness: at a concrete store, a redemption whose password write
fails returns the 500 failure with the token consumed, and redeeming the
same code again fails. -/
theorem redeemNonAtomicTokenConsumed_witness :
    resetPassword { prospects := [alice], resetRequests := [aliceToken] }
        { okRedeemOracle with pwUpdateOk := false } "alice@example.com" "654321" "Abcdefg1" =
      ({ status := 500, success := false, message := "Failed to update password." },
       markTokenUsed { prospects := [alice], resetRequests := [aliceToken] } "654321") ∧
    (resetPassword
        (markTokenUsed { prospects := [alice], resetRequests := [aliceToken] } "654321")
        okRedeemOracle "alice@example.com" "654321" "Abcdefg1").1.status ≠ 200 := by
  have h := redeemNonAtomicTokenConsumed
    { prospects := [alice], resetRequests := [aliceToken] }
    { okRedeemOracle with pwUpdateOk := false }
    "alice@example.com" "654321" "Abcdefg1" aliceToken
    (by decide) (by decide) (by decide) (by decide) (by decide) (by decide)
    (by decide) (by decide) (by decide) (by decide)
  refine ⟨h.2.1 alice (by decide) (by decide) (by decide), ?_⟩
  exact (h.2.2.2 (markTokenUsed { prospects := [alice], resetRequests := [aliceToken] } "654321")
    okRedeemOracle "alice@example.com" "Abcdefg1" (by decide)).1

/-- C2 counterexample: with identical validated inputs, the
code-not-found failure and the email-mismatch failure produce different
message bodies, so the two responses are not identical and the caller
can tell which case occurred. -/
theorem mismatchVsAbsentDistinct_cex :
    (resetPassword aliceOnlyState okRedeemOracle
        "alice@example.com" "123456" "Abcdefg1").1.message = "Invalid or expired code." ∧
    (resetPassword { prospects := [alice], resetRequests := [bobActiveToken] } okRedeemOracle
        "alice@example.com" "123456" "Abcdefg1").1.message = "Invalid code or email." ∧
    (resetPassword aliceOnlyState okRedeemOracle
        "alice@example.com" "123456" "Abcdefg1").1 ≠
      (resetPassword { prospects := [alice], resetRequests := [bobActiveToken] } okRedeemOracle
        "alice@example.com" "123456" "Abcdefg1").1 := by
  decide

/-- C2 (amended): for every validated redemption, both the absent-code
case and the email-mismatch case return status 400, but with two fixed,
distinct messages — "Invalid or expired code." versus
"Invalid code or email." — so the response body does reveal which case
occurred. -/
theorem mismatchVsAbsentStatus400 (s s2 : SysState) (o o2 : RedeemOracle)
    (raw code pw : String) (r : TokenRecord)
    (h1 : (normalize raw).isEmpty = false)
    (h2 : isValidEmail (normalize raw) = true)
    (h3 : isSixDigits code = true)
    (h4 : isValidPassword pw = true)
    (hget : o.getTokenOk = true)
    (habsent : findToken s code = none)
    (hget2 : o2.getTokenOk = true)
    (hfind : findToken s2 code = some r)
    (hmm : normalize r.email ≠ normalize raw) :
    (resetPassword s o raw code pw).1 =
      { status := 400, success := false, message := "Invalid or expired code." } ∧
    (resetPassword s2 o2 raw code pw).1 =
      { status := 400, success := false, message := "Invalid code or email." } ∧
    (resetPassword s o raw code pw).1.status = (resetPassword s2 o2 raw code pw).1.status ∧
    (resetPassword s o raw code pw).1.message ≠ (resetPassword s2 o2 raw code pw).1.message := by
  have ha : (resetPassword s o raw code pw).1 =
      { status := 400, success := false, message := "Invalid or expired code." } := by
    unfold resetPassword
    simp [h1, h2, h3, h4, hget, habsent]
  have hmb : (normalize r.email != normalize raw) = true := by
    simp [bne_iff_ne]
    exact hmm
  have hb : (resetPassword s2 o2 raw code pw).1 =
      { status := 400, success := false, message := "Invalid code or email." } := by
    unfold resetPassword
    simp only [h1, h2, h3, h4, hget2, Bool.false_or, Bool.not_true, Bool.false_eq_true,
      if_false, Bool.not_false, if_true, hfind]
    unfold redeemAfterFetch
    rw [hmb]
    simp
  refine ⟨ha, hb, ?_, ?_⟩
  · rw [ha, hb]
  · rw [ha, hb]
    simp

/-- C2 witness: the amended statement at the concrete states of the
counterexample. -/
theorem mismatchVsAbsentStatus400_witness :
    (resetPassword aliceOnlyState okRedeemOracle "alice@example.com" "123456" "Abcdefg1").1 =
      { status := 400, success := false, message := "Invalid or expired code." } ∧
    (resetPassword { prospects := [alice], resetRequests := [bobActiveToken] } okRedeemOracle
        "alice@example.com" "123456" "Abcdefg1").1 =
      { status := 400, success := false, message := "Invalid code or email." } := by
  have h := mismatchVsAbsentStatus400 aliceOnlyState
    { prospects := [alice], resetRequests := [bobActiveToken] } okRedeemOracle okRedeemOracle
    "alice@example.com" "123456" "Abcdefg1" bobActiveToken
    (by decide) (by decide) (by decide) (by decide) (by decide) (by decide)
    (by decide) (by decide) (by decide)
  exact ⟨h.1, h.2.1⟩

/-- Issuance oracle in which the token-store owner query fails (store
outage); everything else succeeds. -/
def outageIssueOracle : IssueOracle :=
  { okIssueOracle with queryOk := false }

/-- C3 counterexample: with two active tokens already owned by the
existing user, an issuance call during a token-store query outage is NOT
rate limited: it returns the 200 success, mints a third token (the store
grows to length 3) and attempts the notification. -/
theorem rateLimitBypassOnQueryFailure_cex :
    2 ≤ (activeTokens twoActiveState alice.therapistId outageIssueOracle.now).length ∧
    outageIssueOracle.userLookupOk = true ∧
    findUserByEmail twoActiveState.prospects "alice@example.com" = some alice ∧
    (requestPasswordReset twoActiveState outageIssueOracle "alice@example.com").resp.status
        = 200 ∧
    (requestPasswordReset twoActiveState outageIssueOracle "alice@example.com").resp.success
        = true ∧
    (requestPasswordReset twoActiveState outageIssueOracle "alice@example.com").emailAttempted
        = true ∧
    (requestPasswordReset twoActiveState outageIssueOracle
        "alice@example.com").state.resetRequests.length = 3 := by
  decide

/-- C3 (amended): when the cleanup-and-rate-limit block completes — the
owner query succeeds and the stale-token batch delete is empty or
succeeds — an issuance call for an existing user with at least two
active tokens returns 429, creates no token record (the post store is a
subset of the pre store), and attempts no notification. -/
theorem rateLimitedWhenCleanupSucceeds (s : SysState) (o : IssueOracle) (raw : String)
    (u : UserRecord)
    (hv : isValidEmail raw = true)
    (hlk : o.userLookupOk = true)
    (hfound : findUserByEmail s.prospects (normalize raw) = some u)
    (hclean : cleanupRan s o u.therapistId = true)
    (hactive : 2 ≤ (activeTokens s u.therapistId o.now).length) :
    (requestPasswordReset s o raw).resp =
      { status := 429, success := false
        message := "Too many recent reset requests. Please wait before trying again." } ∧
    (∀ t ∈ (requestPasswordReset s o raw).state.resetRequests, t ∈ s.resetRequests) ∧
    (requestPasswordReset s o raw).emailAttempted = false := by
  have hhit : rateLimitHit s o u.therapistId = true := by
    unfold rateLimitHit
    simp [hclean, hactive]
  have hmain : requestPasswordReset s o raw =
      { resp := { status := 429, success := false
                  message := "Too many recent reset requests. Please wait before trying again." }
        state := cleanupState s o u.therapistId, emailAttempted := false } := by
    unfold requestPasswordReset
    simp [hv, hlk, hfound, hhit]
  rw [hmain]
  refine ⟨rfl, ?_, rfl⟩
  intro t ht
  have ht2 : t ∈ (cleanupState s o u.therapistId).resetRequests := ht
  unfold cleanupState at ht2
  rw [if_pos hclean] at ht2
  exact (List.mem_filter.mp ht2).1

/-- C3 witness: the amended statement at a concrete store with two
active tokens and all store steps succeeding. -/
theorem rateLimitedWhenCleanupSucceeds_witness :
    (requestPasswordReset twoActiveState okIssueOracle "alice@example.com").resp =
      { status := 429, success := false
        message := "Too many recent reset requests. Please wait before trying again." } ∧
    (requestPasswordReset twoActiveState okIssueOracle
        "alice@example.com").emailAttempted = false := by
  have h := rateLimitedWhenCleanupSucceeds twoActiveState okIssueOracle "alice@example.com"
    alice (by decide) (by decide) (by decide) (by decide) (by decide)
  exact ⟨h.1, h.2.2⟩

/-- Issuance oracle in which persisting the minted token fails. -/
def persistFailOracle : IssueOracle :=
  { okIssueOracle with upsertOk := false }

/-- C4 counterexample: an issuance call with a valid email, an existing
user and zero active tokens creates NO token record when the persist
step fails — it returns the 500 storage failure with the token store
still empty. -/
theorem mintPersistFailureNoToken_cex :
    isValidEmail "alice@example.com" = true ∧
    persistFailOracle.userLookupOk = true ∧
    findUserByEmail aliceOnlyState.prospects "alice@example.com" = some alice ∧
    (activeTokens aliceOnlyState alice.therapistId persistFailOracle.now).length < 2 ∧
    (requestPasswordReset aliceOnlyState persistFailOracle "alice@example.com").resp.status
        = 500 ∧
    (requestPasswordReset aliceOnlyState persistFailOracle
        "alice@example.com").state.resetRequests = [] := by
  decide

/-- C4 (amended): with a valid email, an existing user, fewer than two
active tokens, and the persist step succeeding, issuance returns the
uniform success and writes exactly one token record under the minted
code — a 6-digit string in 100000..999999 — with `used = false` and
`expiresAt = createdAt + 15` minutes; every other code is untouched
beyond the cleanup pass, and when the minted code is fresh the store
grows by exactly one record. -/
theorem mintCreatesTokenWhenPersistOk (s : SysState) (o : IssueOracle) (raw : String)
    (u : UserRecord)
    (hv : isValidEmail raw = true)
    (hlk : o.userLookupOk = true)
    (hfound : findUserByEmail s.prospects (normalize raw) = some u)
    (hfew : (activeTokens s u.therapistId o.now).length < 2)
    (hupsert : o.upsertOk = true) :
    (requestPasswordReset s o raw).resp =
      { status := 200, success := true
        message := "If your account exists, a reset link has been sent to your email." } ∧
    100000 ≤ mintCode o.rand ∧ mintCode o.rand ≤ 999999 ∧
    isSixDigits (toString (mintCode o.rand)) = true ∧
    (∃ n, findToken (requestPasswordReset s o raw).state (toString (mintCode o.rand)) =
      some { mintedRecord o u.therapistId (normalize raw) with etag := n }) ∧
    (mintedRecord o u.therapistId (normalize raw)).used = false ∧
    (mintedRecord o u.therapistId (normalize raw)).expiresAt =
      (mintedRecord o u.therapistId (normalize raw)).createdAt + 15 * 60000 ∧
    (∀ c, c ≠ toString (mintCode o.rand) →
      findToken (requestPasswordReset s o raw).state c =
        findToken (cleanupState s o u.therapistId) c) ∧
    ((∀ t ∈ (cleanupState s o u.therapistId).resetRequests,
        t.code ≠ toString (mintCode o.rand)) →
      (requestPasswordReset s o raw).state.resetRequests.length =
        (cleanupState s o u.therapistId).resetRequests.length + 1) := by
  have hnohit : rateLimitHit s o u.therapistId = false := by
    unfold rateLimitHit
    have hd : decide (2 ≤ (activeTokens s u.therapistId o.now).length) = false :=
      decide_eq_false (by omega)
    simp [hd]
  have hmain : requestPasswordReset s o raw =
      { resp := { status := 200, success := true
                  message := "If your account exists, a reset link has been sent to your email." }
        state := upsertToken (cleanupState s o u.therapistId)
                   (mintedRecord o u.therapistId (normalize raw))
        emailAttempted := true } := by
    unfold requestPasswordReset
    simp [hv, hlk, hfound, hnohit, hupsert]
  obtain ⟨hlo, hhi⟩ := mintCode_range o.rand
  refine ⟨by rw [hmain], hlo, hhi, isSixDigits_toString _ hlo (by omega), ?_, rfl, rfl, ?_, ?_⟩
  · rw [hmain]
    exact findToken_upsert_self (cleanupState s o u.therapistId)
      (mintedRecord o u.therapistId (normalize raw))
  · intro c hc
    rw [hmain]
    exact findToken_upsert_ne _ _ c hc
  · intro hfresh
    rw [hmain]
    have hap := upsert_fresh (cleanupState s o u.therapistId)
      (mintedRecord o u.therapistId (normalize raw)) (fun r hr => hfresh r hr)
    show (upsertToken (cleanupState s o u.therapistId)
      (mintedRecord o u.therapistId (normalize raw))).resetRequests.length = _
    rw [hap]
    simp

/-- C4 witness: the amended statement at a concrete empty token store;
the minted code is toString (mintCode 23456) = "123456". -/
theorem mintCreatesTokenWhenPersistOk_witness :
    (requestPasswordReset aliceOnlyState okIssueOracle "alice@example.com").resp.status = 200 ∧
    isSixDigits (toString (mintCode okIssueOracle.rand)) = true ∧
    (∃ n, findToken (requestPasswordReset aliceOnlyState okIssueOracle
        "alice@example.com").state (toString (mintCode okIssueOracle.rand)) =
      some { mintedRecord okIssueOracle alice.therapistId (normalize "alice@example.com")
             with etag := n }) := by
  have h := mintCreatesTokenWhenPersistOk aliceOnlyState okIssueOracle "alice@example.com"
    alice (by decide) (by decide) (by decide) (by decide) (by decide)
  exact ⟨by rw [h.1], h.2.2.2.1, h.2.2.2.2.1⟩

/-- C1 counterexample: with a used token (of another owner) stored under
code 123456, an issuance call whose random draw mints the same code
reactivates it — the upsert-merge overwrites the record, and the code
maps to `used = false` afterwards. -/
theorem issuanceReactivatesUsedToken_cex :
    (findToken { prospects := [alice], resetRequests := [bobUsedToken] } "123456").map
        TokenRecord.used = some true ∧
    toString (mintCode okIssueOracle.rand) = "123456" ∧
    (findToken (requestPasswordReset { prospects := [alice], resetRequests := [bobUsedToken] }
        okIssueOracle "alice@example.com").state "123456").map TokenRecord.used
      = some false := by
  decide

/-- C1 (amended): redemption never clears a used flag; issuance never
clears the used flag of any record whose code differs from the minted
code (a mint that collides with an existing code overwrites that record,
resetting `used` to false). -/
theorem usedFlagPreservedExceptCollision (s : SysState) (ro : RedeemOracle)
    (io : IssueOracle) (rawIssue e c pw cc : String) :
    (usedAt s cc → usedAt (resetPassword s ro e c pw).2 cc) ∧
    (cc ≠ toString (mintCode io.rand) → usedAt s cc →
      usedAt (requestPasswordReset s io rawIssue).state cc) :=
  ⟨usedAt_resetPassword s ro e c pw cc,
   fun hne => usedAt_requestPasswordReset s io rawIssue cc hne⟩

/-- C1 witness: a used token under code 999999 stays used through a
redemption call for that code and through an issuance call that mints a
different code. -/
theorem usedFlagPreservedExceptCollision_witness :
    usedAt (resetPassword { prospects := [alice], resetRequests := [aliceUsedToken] }
      okRedeemOracle "alice@example.com" "999999" "Abcdefg1").2 "999999" ∧
    usedAt (requestPasswordReset { prospects := [alice], resetRequests := [aliceUsedToken] }
      outageIssueOracle "alice@example.com").state "999999" := by
  constructor
  · exact (usedFlagPreservedExceptCollision
      { prospects := [alice], resetRequests := [aliceUsedToken] } okRedeemOracle okIssueOracle
      "x" "alice@example.com" "999999" "Abcdefg1" "999999").1 (by decide)
  · exact (usedFlagPreservedExceptCollision
      { prospects := [alice], resetRequests := [aliceUsedToken] } okRedeemOracle
      outageIssueOracle "alice@example.com" "e" "c" "p" "999999").2 (by decide) (by decide)

theorem any_map_pres {α : Type} (l : List α) (g : α → α) (p : α → Bool)
    (hg : ∀ x, p (g x) = p x) :
    (l.map g).any p = l.any p := by
  induction l with
  | nil => rfl
  | cons x xs ih => simp [List.any_cons, hg, ih]

theorem setPwRow_email (e h : String) (u : UserRecord) : (setPwRow e h u).email = u.email := by
  by_cases hc : u.email = e
  · simp [setPwRow, hc]
  · simp [setPwRow, hc]

/-- C6 counterexample: the mark-as-used update is keyed by the wildcard
etag, and in the interleaving in which both callers fetch the token
record before either writes, BOTH redemptions of the same valid code
return 200 — not exactly one.  Caller A's whole call equals its
post-fetch remainder, and caller B's remainder runs against A's
post-state with B's own earlier snapshot. -/
theorem concurrentRedeemBothSucceed_cex :
    markUsedCond = EtagCond.wildcard ∧
    findToken { prospects := [alice], resetRequests := [aliceToken] } "654321"
        = some aliceToken ∧
    resetPassword { prospects := [alice], resetRequests := [aliceToken] } okRedeemOracle
        "alice@example.com" "654321" "Abcdefg1" =
      redeemAfterFetch { prospects := [alice], resetRequests := [aliceToken] } okRedeemOracle
        "alice@example.com" "654321" aliceToken ∧
    (redeemAfterFetch { prospects := [alice], resetRequests := [aliceToken] } okRedeemOracle
        "alice@example.com" "654321" aliceToken).1.status = 200 ∧
    (redeemAfterFetch
        (redeemAfterFetch { prospects := [alice], resetRequests := [aliceToken] }
          okRedeemOracle "alice@example.com" "654321" aliceToken).2
        { okRedeemOracle with hashed := "otherhash" }
        "alice@example.com" "654321" aliceToken).1.status = 200 := by
  decide

/-- C6 (amended): the mark-as-used step passes the wildcard etag `'*'`
(no version condition), so it succeeds whenever the record exists;
consequently, whenever both callers fetch an active matching record
before either writes, both concurrent redemption attempts return 200. -/
theorem wildcardEtagBothSucceed (s : SysState) (oA oB : RedeemOracle) (raw code : String)
    (r : TokenRecord) (u : UserRecord)
    (hfind : findToken s code = some r)
    (hemail : normalize r.email = normalize raw)
    (hexpA : oA.now < r.expiresAt)
    (hexpB : oB.now < r.expiresAt)
    (hused : r.used = false)
    (hAmk : oA.markUsedOk = true) (hAuq : oA.userQueryOk = true) (hApw : oA.pwUpdateOk = true)
    (hBmk : oB.markUsedOk = true) (hBuq : oB.userQueryOk = true) (hBpw : oB.pwUpdateOk = true)
    (huser : findUserByTid s.prospects r.therapistId = some u) :
    markUsedCond = EtagCond.wildcard ∧
    (redeemAfterFetch s oA (normalize raw) code r).1.status = 200 ∧
    (redeemAfterFetch (redeemAfterFetch s oA (normalize raw) code r).2 oB
        (normalize raw) code r).1.status = 200 := by
  have hmb : (normalize r.email != normalize raw) = false := by simp [hemail]
  have hceA : (decide (r.expiresAt ≤ oA.now) || r.used) = false := by
    have hx : ¬(r.expiresAt ≤ oA.now) := by omega
    simp [hx, hused]
  have hceB : (decide (r.expiresAt ≤ oB.now) || r.used) = false := by
    have hx : ¬(r.expiresAt ≤ oB.now) := by omega
    simp [hx, hused]
  have hupdA := updateTokenUsedCond_of_find s code r hfind
  have huserA : findUserByTid (markTokenUsed s code).prospects r.therapistId = some u := huser
  have hexA : userExists (markTokenUsed s code) u.email = true :=
    userExists_of_find s.prospects r.therapistId u huser
  have hA : redeemAfterFetch s oA (normalize raw) code r =
      ({ status := 200, success := true, message := "Password reset successfully." },
       setPassword (markTokenUsed s code) u.email oA.hashed) := by
    unfold redeemAfterFetch
    rw [hmb, hceA]
    simp only [Bool.false_eq_true, if_false, hAmk, if_true, hupdA]
    simp [hAuq, huserA, hApw, hexA]
  have hfindB : findToken (setPassword (markTokenUsed s code) u.email oA.hashed) code =
      some { r with used := true, etag := r.etag + 1 } :=
    findToken_markUsed_self s code r hfind
  have hupdB := updateTokenUsedCond_of_find
    (setPassword (markTokenUsed s code) u.email oA.hashed) code
    { r with used := true, etag := r.etag + 1 } hfindB
  have huserB : findUserByTid
      (markTokenUsed (setPassword (markTokenUsed s code) u.email oA.hashed) code).prospects
      r.therapistId = some (setPwRow u.email oA.hashed u) := by
    show findUserByTid (setPassword (markTokenUsed s code) u.email oA.hashed).prospects
      r.therapistId = _
    rw [findUserByTid_setPassword, huserA]
    rfl
  have hexB : userExists
      (markTokenUsed (setPassword (markTokenUsed s code) u.email oA.hashed) code)
      (setPwRow u.email oA.hashed u).email = true := by
    show userExists (setPassword (markTokenUsed s code) u.email oA.hashed)
      (setPwRow u.email oA.hashed u).email = true
    rw [setPwRow_email]
    show ((markTokenUsed s code).prospects.map (setPwRow u.email oA.hashed)).any
      (fun x => x.email == u.email) = true
    rw [any_map_pres _ _ _ (fun x => by rw [setPwRow_email])]
    exact userExists_of_find s.prospects r.therapistId u huser
  refine ⟨rfl, ?_, ?_⟩
  · rw [hA]
  · rw [hA]
    show (redeemAfterFetch (setPassword (markTokenUsed s code) u.email oA.hashed) oB
      (normalize raw) code r).1.status = 200
    unfold redeemAfterFetch
    rw [hmb, hceB]
    simp only [Bool.false_eq_true, if_false, hBmk, if_true, hupdB]
    simp [hBuq, huserB, hBpw, hexB]

/-- C6 witness: the amended statement at the concrete single-token
store. -/
theorem wildcardEtagBothSucceed_witness :
    (redeemAfterFetch { prospects := [alice], resetRequests := [aliceToken] } okRedeemOracle
        (normalize "alice@example.com") "654321" aliceToken).1.status = 200 ∧
    (redeemAfterFetch
        (redeemAfterFetch { prospects := [alice], resetRequests := [aliceToken] }
          okRedeemOracle (normalize "alice@example.com") "654321" aliceToken).2
        { okRedeemOracle with hashed := "otherhash" }
        (normalize "alice@example.com") "654321" aliceToken).1.status = 200 := by
  have h := wildcardEtagBothSucceed { prospects := [alice], resetRequests := [aliceToken] }
    okRedeemOracle { okRedeemOracle with hashed := "otherhash" }
    "alice@example.com" "654321" aliceToken alice
    (by decide) (by decide) (by decide) (by decide) (by decide) (by decide) (by decide)
    (by decide) (by decide) (by decide) (by decide) (by decide)
  exact ⟨h.2.1, h.2.2⟩

end ResetService
